import Mathlib

/-!
Shallow embedding of the conversation-orchestration core of the chat client
(src/App.tsx and src/services/geminiService.ts), together with proofs about
its history projection, request construction, mode dispatch, streaming fold,
error recovery and conversation-store operations.

Conventions of the embedding:
* TypeScript strings are Lean `String`s; `Date.now()` and `new Date()` are a
  `now : Nat` parameter threaded where the source calls them.
* Optional TypeScript fields are `Option`; a JavaScript truthiness test on a
  string-valued optional field is `Option` presence plus a non-emptiness test.
* `array[i]` on a `split` result is modelled totally with `List.getD i ""`;
  on the well-formed `data:<mime>;base64,<payload>` strings the code feeds it,
  this agrees with the JavaScript expression.
* Asynchronous backend calls are an explicit `Backend` record of oracles; the
  `try`/`catch`/`finally` control flow becomes total functions on `Except`
  results, so that an error absorbed by a `catch` is an ordinary value.
-/

/-- A staged or generated file attachment (the `UploadedFile` interface). -/
structure UploadedFile where
  id : String
  name : String
  type : String
  size : Nat
  data : String
  description : Option String
deriving DecidableEq, Repr, Inhabited

/-- Author role of a turn (the `'user' | 'model'` union). -/
inductive Role where
  | user
  | model
deriving DecidableEq, Repr, Inhabited

/-- A web grounding source (the `GroundingChunk.web` payload). -/
structure GroundingChunk where
  uri : String
  title : String
deriving DecidableEq, Repr, Inhabited

/-- One conversation turn (the `Message` interface). -/
structure Message where
  id : String
  role : Role
  text : String
  files : Option (List UploadedFile)
  timestamp : Nat
  groundingChunks : Option (List GroundingChunk)
deriving DecidableEq, Repr, Inhabited

/-- A conversation (the `Conversation` interface). -/
structure Conversation where
  id : String
  title : String
  messages : List Message
  createdAt : Nat
deriving DecidableEq, Repr, Inhabited

/-- The per-send response mode (the `SendMode` union:
`'default' | 'no-thinking' | 'search' | 'image'`). -/
inductive SendMode where
  | default
  | noThinking
  | search
  | image
deriving DecidableEq, Repr, Inhabited

/-- The settings consulted by the core (the `Settings` interface; theme,
color theme, font and font size are presentation-only strings/numbers). -/
structure Settings where
  theme : String
  colorTheme : String
  font : String
  fontSize : Nat
  systemPrompt : String
  useSearch : Bool
deriving DecidableEq, Repr, Inhabited

/-- One content part of a backend request (the GenAI `GenPart` union: a text
part or an inline-data part). -/
inductive GenPart where
  | text (s : String)
  | inlineData (mimeType : String) (data : String)
deriving DecidableEq, Repr, Inhabited

/-- One content entry of a backend request (the GenAI `Content` shape). -/
structure Content where
  role : Role
  parts : List GenPart
deriving DecidableEq, Repr, Inhabited

/-- The base64 payload segment of an attachment's data URI:
`file.data.split(',')[1]`. -/
def base64Of (data : String) : String :=
  (data.splitOn ",").getD 1 ""

/-- The media type extracted from an attachment's data URI:
`meta.split(':')[1].split(';')[0]` where `meta = file.data.split(',')[0]`. -/
def mimeTypeOf (data : String) : String :=
  ((((data.splitOn ",").getD 0 "").splitOn ":").getD 1 "").splitOn ";" |>.getD 0 ""

/-- The preface text emitted immediately before a file's data part.  A
JavaScript truthiness test guards the description, so an empty description
falls back to the filename-only wording. -/
def prefaceFor (file : UploadedFile) : String :=
  match file.description with
  | some d =>
      if d ≠ "" then
        "This file, which I\x27ve named \"" ++ d ++ "\", has the original filename \""
          ++ file.name ++ "\"."
      else
        "This is the file with the original filename \"" ++ file.name ++ "\"."
  | none => "This is the file with the original filename \"" ++ file.name ++ "\"."

/-- The preface text part pushed for one file. -/
def prefacePart (file : UploadedFile) : GenPart :=
  GenPart.text (prefaceFor file)

/-- The inline-data part pushed for one file. -/
def dataPart (file : UploadedFile) : GenPart :=
  GenPart.inlineData (mimeTypeOf file.data) (base64Of file.data)

/-- The two parts pushed per file: preface text, then encoded data. -/
def filePartPair (file : UploadedFile) : List GenPart :=
  [prefacePart file, dataPart file]

/-- Whether a message enters the attachment-interleaving branch:
`msg.role === 'user' && msg.files && msg.files.length > 0`. -/
def hasFiles (msg : Message) : Bool :=
  msg.role == Role.user &&
    (match msg.files with
     | some fs => fs.length > 0
     | none => false)

/-- Projection of one stored message to backend content (the body of the
`history.map` callback in `mapHistoryToGenAI`). -/
def mapMessageToContent (msg : Message) : Content :=
  let parts : List GenPart :=
    if hasFiles msg then
      ((msg.files.getD []).map filePartPair).flatten
        ++ (if msg.text ≠ "" then [GenPart.text msg.text] else [])
    else
      if msg.text ≠ "" then [GenPart.text msg.text] else []
  { role := msg.role, parts := parts }

/-- `mapHistoryToGenAI`: project a stored history into backend content. -/
def mapHistoryToGenAI (history : List Message) : List Content :=
  history.map mapMessageToContent

/-- The search tool entry (`{ googleSearch: {} }`). -/
inductive Tool where
  | googleSearch
deriving DecidableEq, Repr, Inhabited

/-- The request configuration assembled by `streamResponse`. -/
structure GenConfig where
  systemInstruction : Option String
  tools : Option (List Tool)
  thinkingBudget : Option Nat
deriving DecidableEq, Repr, Inhabited

/-- The effective search flag:
`(sendMode === 'search') || (settings.useSearch && sendMode === 'default')`. -/
def resolveUseSearch (sendMode : SendMode) (settings : Settings) : Bool :=
  (sendMode == SendMode.search) || (settings.useSearch && sendMode == SendMode.default)

/-- The parts of the newly composed user turn: per file a preface part then a
data part, then the main text as a final part when non-empty. -/
def buildNewParts (text : String) (files : List UploadedFile) : List GenPart :=
  (files.map filePartPair).flatten ++ (if text ≠ "" then [GenPart.text text] else [])

/-- The configuration object assembled by `streamResponse`:
system instruction when non-empty, the search tool only when the effective
search flag is set and no files are attached, a zero thinking budget for the
no-thinking mode. -/
def buildConfig (settings : Settings) (sendMode : SendMode)
    (files : List UploadedFile) : GenConfig :=
  let useSearch := resolveUseSearch sendMode settings
  let useNoThinking := sendMode == SendMode.noThinking
  { systemInstruction :=
      if settings.systemPrompt ≠ "" then some settings.systemPrompt else none
    tools :=
      if useSearch && files.length == 0 then some [Tool.googleSearch] else none
    thinkingBudget := if useNoThinking then some 0 else none }

/-- The full streaming request (contents plus config) sent by
`generateContentStream` inside `streamResponse`. -/
structure StreamRequest where
  contents : List Content
  config : GenConfig
deriving DecidableEq, Repr, Inhabited

/-- `streamResponse` up to the backend call: the request it issues. -/
def streamResponse (history : List Message) (text : String)
    (files : List UploadedFile) (settings : Settings) (sendMode : SendMode) :
    StreamRequest :=
  { contents :=
      mapHistoryToGenAI history ++ [{ role := Role.user, parts := buildNewParts text files }]
    config := buildConfig settings sendMode files }

/-- One fragment of the streaming response: its text delta and the optional
grounding list found at `chunk.candidates?.[0]?.groundingMetadata?.groundingChunks`
(`none` when the optional chain yields `undefined`). -/
structure Chunk where
  text : String
  groundingChunks : Option (List GroundingChunk)
deriving DecidableEq, Repr, Inhabited

/-- The error taxonomy of the three backend operations. -/
inductive BackendError where
  | malformedAttachment
  | noImageReturned
  | backendRequest
deriving DecidableEq, Repr, Inhabited

/-- The backend as a record of oracles.  `stream` yields the fragments
delivered before the stream either completed (`none`) or failed (`some e`);
`generate` and `edit` either return their payload or fail. -/
structure Backend where
  stream : StreamRequest → List Chunk × Option BackendError
  generate : String → Except BackendError UploadedFile
  edit : String → UploadedFile → Except BackendError (String × UploadedFile)

/-- The top-level React state the core manipulates. -/
structure AppState where
  conversations : List Conversation
  currentConversationId : Option String
  isThinking : Bool
deriving DecidableEq, Repr, Inhabited

/-- `conversations.find(c => c.id === currentConversationId) || null`. -/
def currentConversation (st : AppState) : Option Conversation :=
  match st.currentConversationId with
  | some cid => st.conversations.find? fun c => c.id == cid
  | none => none

/-- `handleDeleteConversation`: drop the conversation; when it was the active
one, reassign the active id to the first remaining conversation, or clear it
when none remain. -/
def handleDeleteConversation (st : AppState) (id : String) : AppState :=
  let newConversations := st.conversations.filter fun c => c.id != id
  let newCurrent :=
    if st.currentConversationId = some id then
      match st.conversations.filter (fun c => c.id != id) with
      | [] => none
      | c :: _ => some c.id
    else st.currentConversationId
  { conversations := newConversations, currentConversationId := newCurrent,
    isThinking := st.isThinking }

/-- Append a message to the conversation with the given id (the
`setConversations(prev => prev.map(c => c.id === convId ? ... : c))` shape). -/
def appendMessage (convs : List Conversation) (convId : String) (msg : Message) :
    List Conversation :=
  convs.map fun c =>
    if c.id == convId then { c with messages := c.messages ++ [msg] } else c

/-- The in-place streaming patch: replace the addressed turn's text and
grounding list inside the addressed conversation; anything unaddressed is
left as it was. -/
def patchTurn (convs : List Conversation) (convId msgId : String)
    (newText : String) (gcs : Option (List GroundingChunk)) : List Conversation :=
  convs.map fun c =>
    if c.id == convId then
      { c with
        messages := c.messages.map fun m =>
          if m.id == msgId then { m with text := newText, groundingChunks := gcs } else m }
    else c

/-- One iteration of the `for await` streaming loop.  The source computes
`chunk.candidates?...groundingChunks || modelMessage.groundingChunks`; a
carried list (a truthy JavaScript array, even when empty) wins, and the
fallback is the captured initial message's list, passed here as `initRefs`. -/
def streamFoldStep (initRefs : Option (List GroundingChunk)) (convId msgId : String)
    (st : List Conversation × String) (chunk : Chunk) : List Conversation × String :=
  let streamedText := st.2 ++ chunk.text
  let groundingChunks :=
    match chunk.groundingChunks with
    | some l => some l
    | none => initRefs
  (patchTurn st.1 convId msgId streamedText groundingChunks, streamedText)

/-- `text.substring(0, 30) || 'New Conversation'`. -/
def take30Title (text : String) : String :=
  if text.take 30 ≠ "" then text.take 30 else "New Conversation"

/-- The `updateWithUserMessage` callback of `handleSendMessage`: append the
user message to the addressed conversation and, when it had no messages yet,
retitle it from the new text. -/
def updateWithUserMessage (convId : String) (userMessage : Message) (text : String)
    (convo : Conversation) : Conversation :=
  if convo.id == convId then
    { convo with
      messages := convo.messages ++ [userMessage],
      title := if convo.messages.length == 0 then take30Title text else convo.title }
  else convo

/-- What `handleSendMessagePre` must hand to the dispatch phase. -/
structure PreResult where
  state : AppState
  convId : String
  history : List Message
deriving Repr, Inhabited

/-- The synchronous prefix of `handleSendMessage`: resolve or synthesize the
target conversation, append the optimistic user turn, record the history
snapshot taken before the append, and set the thinking flag. -/
def handleSendMessagePre (st : AppState) (text : String) (files : List UploadedFile)
    (sendMode : SendMode) (now : Nat) : PreResult :=
  let filesForUserMessage : List UploadedFile :=
    if sendMode == SendMode.image && files.length == 0 then [] else files
  let userMessage : Message :=
    { id := "msg-" ++ toString now, role := Role.user, text := text,
      files := some filesForUserMessage, timestamp := now, groundingChunks := none }
  match currentConversation st with
  | none =>
      let newConvId := "conv-" ++ toString now
      let newConversation : Conversation :=
        { id := newConvId, title := take30Title text, messages := [], createdAt := now }
      { state :=
          { conversations :=
              { newConversation with messages := [userMessage] } :: st.conversations,
            currentConversationId := some newConvId, isThinking := true },
        convId := newConvId, history := [] }
  | some convo =>
      { state :=
          { conversations := st.conversations.map (updateWithUserMessage convo.id userMessage text),
            currentConversationId := st.currentConversationId, isThinking := true },
        convId := convo.id, history := convo.messages }

/-- The JavaScript prefix test `s.startsWith(p)`, stated over the string's
character list so that concrete instances evaluate. -/
def jsStartsWith (s p : String) : Bool :=
  p.data.isPrefixOf s.data

/-- Which backend operation `handleSendMessage` invokes, with which
arguments: image mode with a leading image-typed file edits that file, image
mode otherwise generates from the bare prompt, and every other mode streams
the request built by `streamResponse`. -/
inductive BackendCall where
  | streamCall (req : StreamRequest)
  | generateCall (prompt : String)
  | editCall (prompt : String) (file : UploadedFile)
deriving DecidableEq, Repr, Inhabited

/-- The mode-dispatch decision of `handleSendMessage`
(`sendMode === 'image'`, then `files.length > 0 && files[0].type.startsWith('image/')`). -/
def dispatchCall (history : List Message) (text : String) (files : List UploadedFile)
    (settings : Settings) (sendMode : SendMode) : BackendCall :=
  if sendMode == SendMode.image then
    match files with
    | f :: _ =>
        if jsStartsWith f.type "image/" then BackendCall.editCall text f
        else BackendCall.generateCall text
    | [] => BackendCall.generateCall text
  else
    BackendCall.streamCall (streamResponse history text files settings sendMode)

/-- The apology text of `handleSendMessage`'s catch block. -/
def sendErrorText : String := "Sorry, something went wrong. Please try again."

/-- The apology text of `handleEditImage`'s catch block. -/
def editErrorText : String := "Sorry, I couldn\x27t edit that image. Please try again."

/-- The apology turn appended by `handleSendMessage` on any failure. -/
def errorBotMessage (now : Nat) : Message :=
  { id := "msg-" ++ toString now ++ "-bot-error", role := Role.model,
    text := sendErrorText, files := none, timestamp := now, groundingChunks := none }

/-- The apology turn appended by `handleEditImage` on any failure. -/
def editErrorBotMessage (now : Nat) : Message :=
  { id := "msg-" ++ toString now ++ "-bot-error", role := Role.model,
    text := editErrorText, files := none, timestamp := now, groundingChunks := none }

/-- The empty model turn appended before the first stream fragment arrives. -/
def initialModelMessage (now : Nat) : Message :=
  { id := "msg-" ++ toString now ++ "-bot", role := Role.model, text := "",
    files := none, timestamp := now, groundingChunks := some [] }

/-- The state just before the `await` on the backend call: for the streaming
modes the empty model turn has already been appended; for image mode nothing
beyond the user turn exists yet. -/
def stateBeforeBackendCall (st : AppState) (text : String) (files : List UploadedFile)
    (sendMode : SendMode) (now : Nat) : AppState :=
  let pre := handleSendMessagePre st text files sendMode now
  if sendMode == SendMode.image then pre.state
  else
    { pre.state with
      conversations := appendMessage pre.state.conversations pre.convId (initialModelMessage now) }

/-- `handleSendMessage` end to end, as a total state transition over the
backend oracles: user-turn append, dispatch, result or error fold, and the
`finally` clearing of the thinking flag. -/
def handleSendMessage (backend : Backend) (st : AppState) (text : String)
    (files : List UploadedFile) (settings : Settings) (sendMode : SendMode)
    (now : Nat) : AppState :=
  let pre := handleSendMessagePre st text files sendMode now
  let convId := pre.convId
  let convs1 := pre.state.conversations
  let conversations :=
    match dispatchCall pre.history text files settings sendMode with
    | BackendCall.editCall prompt f =>
        match backend.edit prompt f with
        | Except.ok (responseText, editedFile) =>
            appendMessage convs1 convId
              { id := "msg-" ++ toString now ++ "-bot-img-edit", role := Role.model,
                text := responseText, files := some [editedFile], timestamp := now,
                groundingChunks := none }
        | Except.error _ => appendMessage convs1 convId (errorBotMessage now)
    | BackendCall.generateCall prompt =>
        match backend.generate prompt with
        | Except.ok generatedFile =>
            appendMessage convs1 convId
              { id := "msg-" ++ toString now ++ "-bot-img", role := Role.model,
                text := "", files := some [generatedFile], timestamp := now,
                groundingChunks := none }
        | Except.error _ => appendMessage convs1 convId (errorBotMessage now)
    | BackendCall.streamCall req =>
        let modelMessage := initialModelMessage now
        let convs2 := appendMessage convs1 convId modelMessage
        let result := backend.stream req
        let folded := result.1.foldl
          (streamFoldStep modelMessage.groundingChunks convId modelMessage.id) (convs2, "")
        match result.2 with
        | none => folded.1
        | some _ => appendMessage folded.1 convId (errorBotMessage now)
  { conversations := conversations,
    currentConversationId := pre.state.currentConversationId,
    isThinking := false }

/-- The state of `handleEditImage` just before its backend call: the prompt
appended as a user turn carrying the file under edit, thinking flag set.
When no conversation is active the handler returns without doing anything. -/
def handleEditImagePre (st : AppState) (prompt : String) (fileToEdit : UploadedFile)
    (now : Nat) : AppState :=
  match currentConversation st with
  | none => st
  | some convo =>
      let userMessage : Message :=
        { id := "msg-" ++ toString now, role := Role.user, text := prompt,
          files := some [fileToEdit], timestamp := now, groundingChunks := none }
      { conversations := appendMessage st.conversations convo.id userMessage,
        currentConversationId := st.currentConversationId, isThinking := true }

/-- `handleEditImage` end to end as a total state transition. -/
def handleEditImage (backend : Backend) (st : AppState) (prompt : String)
    (fileToEdit : UploadedFile) (now : Nat) : AppState :=
  match currentConversation st with
  | none => st
  | some convo =>
      let convId := convo.id
      let userMessage : Message :=
        { id := "msg-" ++ toString now, role := Role.user, text := prompt,
          files := some [fileToEdit], timestamp := now, groundingChunks := none }
      let convs1 := appendMessage st.conversations convId userMessage
      let conversations :=
        match backend.edit prompt fileToEdit with
        | Except.ok (text, file) =>
            appendMessage convs1 convId
              { id := "msg-" ++ toString now ++ "-bot-edit", role := Role.model,
                text := text, files := some [file], timestamp := now,
                groundingChunks := none }
        | Except.error _ => appendMessage convs1 convId (editErrorBotMessage now)
      { conversations := conversations,
        currentConversationId := st.currentConversationId, isThinking := false }

/-- The pure part of `generateImage`: the attachment built from the returned
base64 bytes.  The `/\s/g` whitespace substitution is modelled on the space
character, the only whitespace the surrounding code produces. -/
def generateImageFile (now : Nat) (prompt : String) (base64ImageBytes : String) :
    UploadedFile :=
  { id := "img-" ++ toString now,
    name := ((prompt.take 30).trim.replace " " "_") ++ ".png",
    type := "image/png",
    size := base64ImageBytes.length,
    data := "data:image/png;base64," ++ base64ImageBytes,
    description := some ("Generated image for prompt: \"" ++ prompt ++ "\"") }

/-- The content parts `editImage` sends: the source image's inline data, then
the instruction text — built from its two arguments only. -/
def editImageRequestParts (prompt : String) (imageFile : UploadedFile) : List GenPart :=
  [GenPart.inlineData (mimeTypeOf imageFile.data) (base64Of imageFile.data),
   GenPart.text prompt]

/-- One iteration of `editImage`'s loop over the response parts: truthy text
accumulates, inline data overwrites the candidate result file. -/
def editImageFoldStep (now : Nat) (prompt : String) (imageFile : UploadedFile)
    (acc : String × Option UploadedFile) (p : GenPart) : String × Option UploadedFile :=
  match p with
  | GenPart.text s => if s ≠ "" then (acc.1 ++ s, acc.2) else acc
  | GenPart.inlineData mt d =>
      (acc.1,
       some { id := "img-edit-" ++ toString now,
              name := "edited_" ++ imageFile.name,
              type := mt,
              size := d.length,
              data := "data:" ++ mt ++ ";base64," ++ d,
              description := some ("Edited image for prompt: \"" ++ prompt ++ "\"") })

/-- The tail of `editImage`: fold the response parts and fail with
`NoImageReturnedError` when no inline-data part arrived. -/
def editImageResult (now : Nat) (prompt : String) (imageFile : UploadedFile)
    (responseParts : List GenPart) : Except BackendError (String × UploadedFile) :=
  let r := responseParts.foldl (editImageFoldStep now prompt imageFile) ("", none)
  match r.2 with
  | some f => Except.ok (r.1, f)
  | none => Except.error BackendError.noImageReturned

/-- Look a conversation up by id. -/
def conversationById (convs : List Conversation) (convId : String) : Option Conversation :=
  convs.find? fun c => c.id == convId

/-- The grounding list of the addressed turn, when conversation and turn both
exist. -/
def turnRefs (convs : List Conversation) (convId msgId : String) :
    Option (Option (List GroundingChunk)) :=
  match conversationById convs convId with
  | some c =>
      match c.messages.find? (fun m => m.id == msgId) with
      | some m => some m.groundingChunks
      | none => none
  | none => none

/-- A backend whose very first suspension already fails, whatever the
operation. -/
def failsImmediately (b : Backend) : Prop :=
  (∀ r, ∃ e, b.stream r = ([], some e)) ∧
  (∀ p, ∃ e, b.generate p = Except.error e) ∧
  (∀ p f, ∃ e, b.edit p f = Except.error e)

/-- The messages of the addressed conversation, when it exists. -/
def messagesAt (convs : List Conversation) (cid : String) : Option (List Message) :=
  (conversationById convs cid).map Conversation.messages

/-- A sample image attachment used to instantiate the theorems. -/
def sampleImageFile : UploadedFile :=
  { id := "file-1", name := "photo.png", type := "image/png", size := 4,
    data := "data:image/png;base64,AAAA", description := some "my photo" }

/-- A sample non-image attachment used to instantiate the theorems. -/
def samplePdfFile : UploadedFile :=
  { id := "file-2", name := "notes.pdf", type := "application/pdf", size := 4,
    data := "data:application/pdf;base64,BBBB", description := none }

/-- Sample settings used to instantiate the theorems. -/
def sampleSettings : Settings :=
  { theme := "dark", colorTheme := "blue", font := "sans", fontSize := 16,
    systemPrompt := "You are a helpful and friendly assistant.", useSearch := false }

/-- A sample empty conversation used to instantiate the theorems. -/
def sampleConversation : Conversation :=
  { id := "c1", title := "New Conversation", messages := [], createdAt := 0 }

/-- A sample user message with one attachment. -/
def sampleUserMessage : Message :=
  { id := "m1", role := Role.user, text := "hello",
    files := some [sampleImageFile], timestamp := 0, groundingChunks := none }

/-- A sample app state with one empty active conversation. -/
def sampleState : AppState :=
  { conversations := [sampleConversation],
    currentConversationId := some "c1", isThinking := false }

/-- A sample app state with no conversations at all. -/
def emptyState : AppState :=
  { conversations := [], currentConversationId := none, isThinking := false }

/-- A backend on which every operation fails at once. -/
def failingBackend : Backend :=
  { stream := fun _ => ([], some BackendError.backendRequest),
    generate := fun _ => Except.error BackendError.backendRequest,
    edit := fun _ _ => Except.error BackendError.backendRequest }

/-- A backend on which every operation succeeds. -/
def okBackend : Backend :=
  { stream := fun _ => ([], none),
    generate := fun p => Except.ok (generateImageFile 5 p "CCCC"),
    edit := fun p _ => Except.ok ("Edited.", generateImageFile 5 p "DDDD") }

/-- A concrete grounding reference for the streaming-fold counterexample. -/
def cexRef : GroundingChunk := { uri := "https://a.example", title := "A" }

/-- A concrete fragment sequence whose first fragment carries a grounding
list and whose last fragment carries none. -/
def cexChunks : List Chunk :=
  [{ text := "x", groundingChunks := some [cexRef] },
   { text := "y", groundingChunks := none }]

/-- A concrete store holding one conversation with one streaming model turn. -/
def cexStore : List Conversation :=
  [{ id := "c", title := "t",
     messages := [{ id := "m", role := Role.model, text := "", files := none,
                    timestamp := 0, groundingChunks := some [] }],
     createdAt := 0 }]

/-- Searching by id commutes with mapping an id-preserving function. -/
theorem find?_id_map (f : Conversation → Conversation)
    (hf : ∀ c, (f c).id = c.id) (l : List Conversation) (k : String) :
    (l.map f).find? (fun c => c.id == k) = (l.find? (fun c => c.id == k)).map f := by
  have hp : ((fun c => c.id == k) ∘ f) = fun c => c.id == k := by
    funext c
    simp [Function.comp, hf]
  rw [List.find?_map, hp]

/-- Searching messages by id commutes with mapping an id-preserving function. -/
theorem find?_msg_id_map (f : Message → Message)
    (hf : ∀ m, (f m).id = m.id) (l : List Message) (k : String) :
    (l.map f).find? (fun m => m.id == k) = (l.find? (fun m => m.id == k)).map f := by
  have hp : ((fun m => m.id == k) ∘ f) = fun m => m.id == k := by
    funext m
    simp [Function.comp, hf]
  rw [List.find?_map, hp]

/-- Appending a message rewrites exactly the addressed conversation, as seen
through lookup by that id. -/
theorem conversationById_appendMessage (convs : List Conversation) (k : String)
    (msg : Message) :
    conversationById (appendMessage convs k msg) k
      = (conversationById convs k).map fun c => { c with messages := c.messages ++ [msg] } := by
  unfold conversationById appendMessage
  rw [find?_id_map]
  · cases h : convs.find? (fun c => c.id == k) with
    | none => rfl
    | some c =>
        have hc : c.id = k := by simpa using List.find?_some h
        simp [hc]
  · intro c
    by_cases h : c.id == k <;> simp [h]

/-- Patching a turn rewrites exactly the addressed conversation, as seen
through lookup by that id. -/
theorem conversationById_patchTurn (convs : List Conversation) (k mid : String)
    (t : String) (g : Option (List GroundingChunk)) :
    conversationById (patchTurn convs k mid t g) k
      = (conversationById convs k).map fun c =>
          { c with messages := c.messages.map fun m =>
              if m.id == mid then { m with text := t, groundingChunks := g } else m } := by
  unfold conversationById patchTurn
  rw [find?_id_map]
  · cases h : convs.find? (fun c => c.id == k) with
    | none => rfl
    | some c =>
        have hc : c.id = k := by simpa using List.find?_some h
        simp [hc]
  · intro c
    by_cases h : c.id == k <;> simp [h]

/-- Through `turnRefs`, a patch replaces the addressed turn's grounding list
and touches nothing else about its existence. -/
theorem turnRefs_patchTurn (convs : List Conversation) (cid mid : String)
    (t : String) (g : Option (List GroundingChunk)) :
    turnRefs (patchTurn convs cid mid t g) cid mid
      = (turnRefs convs cid mid).map fun _ => g := by
  unfold turnRefs
  rw [conversationById_patchTurn]
  cases h : conversationById convs cid with
  | none => rfl
  | some c =>
      simp only [Option.map_some']
      rw [find?_msg_id_map]
      · cases hm : c.messages.find? (fun m => m.id == mid) with
        | none => rfl
        | some m =>
            have hmid : m.id = mid := by simpa using List.find?_some hm
            simp [hmid]
      · intro m
        by_cases hm : m.id == mid <;> simp [hm]

/-- A patch addressed to an id that no conversation carries is the identity. -/
theorem patchTurn_of_not_mem (convs : List Conversation) (cid mid t : String)
    (g : Option (List GroundingChunk)) (h : ∀ c ∈ convs, ¬ c.id = cid) :
    patchTurn convs cid mid t g = convs := by
  induction convs with
  | nil => rfl
  | cons c l ih =>
      have hc : ¬ c.id = cid := h c (List.mem_cons_self c l)
      have hcb : (c.id == cid) = false := by simpa using hc
      simp only [patchTurn, List.map_cons, hcb, if_neg, Bool.false_eq_true, not_false_iff]
      refine congrArg (c :: ·) ?_
      exact ih fun x hx => h x (List.mem_cons_of_mem c hx)

/-- The interleaved attachment parts have twice as many entries as there are
attachments. -/
theorem flatPairs_length (fs : List UploadedFile) :
    ((fs.map filePartPair).flatten).length = 2 * fs.length := by
  induction fs with
  | nil => simp
  | cons f t ih =>
      simp only [List.map_cons, List.flatten_cons, List.length_append, ih, filePartPair]
      simp
      omega

/-- Within the interleaved attachment parts, entry `2i` is the `i`-th
preface and entry `2i+1` the `i`-th data part, whatever follows them. -/
theorem flatPairs_getElem (fs : List UploadedFile) (rest : List GenPart) :
    ∀ i (hi : i < fs.length),
      ((fs.map filePartPair).flatten ++ rest)[2 * i]? = some (prefacePart fs[i])
      ∧ ((fs.map filePartPair).flatten ++ rest)[2 * i + 1]? = some (dataPart fs[i]) := by
  induction fs with
  | nil =>
      intro i hi
      exact absurd hi (by simp)
  | cons f t ih =>
      intro i hi
      have hshape : ((f :: t).map filePartPair).flatten ++ rest
          = prefacePart f :: dataPart f :: ((t.map filePartPair).flatten ++ rest) := by
        simp [filePartPair]
      cases i with
      | zero =>
          rw [hshape]
          constructor <;> simp
      | succ j =>
          have hj : j < t.length := by simpa using hi
          have h2 : 2 * (j + 1) = 2 * j + 1 + 1 := by ring
          rw [hshape, h2]
          constructor
          · rw [List.getElem?_cons_succ, List.getElem?_cons_succ]
            simpa using (ih j hj).1
          · rw [List.getElem?_cons_succ, List.getElem?_cons_succ]
            simpa using (ih j hj).2

/-- The entry right after the interleaved attachment parts is whatever was
appended there. -/
theorem flatPairs_getElem_last (fs : List UploadedFile) (x : GenPart) :
    ((fs.map filePartPair).flatten ++ [x])[2 * fs.length]? = some x := by
  have h := List.getElem?_concat_length ((fs.map filePartPair).flatten) x
  rwa [flatPairs_length] at h

/-- Through `turnRefs`, one streaming step installs the fragment's carried
list, or the empty list when the fragment carries none. -/
theorem turnRefs_streamFoldStep (cid mid : String) (st : List Conversation × String)
    (ch : Chunk) :
    turnRefs (streamFoldStep (some []) cid mid st ch).1 cid mid
      = (turnRefs st.1 cid mid).map fun _ => some (ch.groundingChunks.getD []) := by
  unfold streamFoldStep
  cases hgc : ch.groundingChunks with
  | none => simp [hgc, turnRefs_patchTurn]
  | some l => simp [hgc, turnRefs_patchTurn]

/-- Through `turnRefs`, a whole stream leaves the last fragment's carried
list, or the empty list when the last fragment carried none. -/
theorem turnRefs_foldl_last (cid mid : String) :
    ∀ (cs : List Chunk) (hcs : cs ≠ []) (st : List Conversation × String),
      turnRefs (cs.foldl (streamFoldStep (some []) cid mid) st).1 cid mid
        = (turnRefs st.1 cid mid).map
            fun _ => some (((cs.getLast hcs).groundingChunks).getD []) := by
  intro cs
  induction cs with
  | nil => intro hcs; exact absurd rfl hcs
  | cons c t ih =>
      intro hcs st
      by_cases hte : t = []
      · subst hte
        rw [List.foldl_cons, List.foldl_nil, turnRefs_streamFoldStep]
        simp [List.getLast]
      · rw [List.foldl_cons, ih hte (streamFoldStep (some []) cid mid st c),
            turnRefs_streamFoldStep, Option.map_map]
        congr 1
        funext x
        simp [Function.comp, List.getLast_cons hte]

/-- A patch addressed to a deleted conversation, iterated over any stream
suffix, leaves the store untouched. -/
theorem streamFold_of_not_mem (cid mid : String) :
    ∀ (cs : List Chunk) (convs : List Conversation) (acc : String),
      (∀ c ∈ convs, ¬ c.id = cid) →
      (cs.foldl (streamFoldStep (some []) cid mid) (convs, acc)).1 = convs := by
  intro cs
  induction cs with
  | nil => intro convs acc _; rfl
  | cons c t ih =>
      intro convs acc h
      rw [List.foldl_cons]
      have hstep : streamFoldStep (some []) cid mid (convs, acc) c
          = (convs, acc ++ c.text) := by
        unfold streamFoldStep
        dsimp only
        rw [patchTurn_of_not_mem _ _ _ _ _ h]
      rw [hstep]
      exact ih convs (acc ++ c.text) h

/-- Appending a message, seen through the addressed conversation's message
list. -/
theorem messagesAt_appendMessage (convs : List Conversation) (k : String) (m : Message) :
    messagesAt (appendMessage convs k m) k = (messagesAt convs k).map (· ++ [m]) := by
  unfold messagesAt
  rw [conversationById_appendMessage]
  cases conversationById convs k <;> rfl

/-- A 30-character truncation of a non-empty string is non-empty. -/
theorem take30_ne_empty {text : String} (h : text ≠ "") : text.take 30 ≠ "" := by
  intro h30
  apply h
  have hd : (text.take 30).data = [] := by rw [h30]
  rw [String.data_take] at hd
  rcases List.take_eq_nil_iff.mp hd with h0 | hnil
  · exact absurd h0 (by decide)
  · apply String.ext
    rw [hnil]

/-- C1: a user turn with N ≥ 1 attachments and non-empty text projects, in
order, per attachment a preface text part then its encoded data part, then
exactly one trailing text part with the turn's text — 2N+1 parts in all —
while a model turn or an attachment-free user turn projects to at most one
text part, and to none when its text is empty. -/
theorem C1_history_projection (msg : Message) (fs : List UploadedFile)
    (hrole : msg.role = Role.user) (hfs : msg.files = some fs)
    (hne : fs ≠ []) (htext : msg.text ≠ "") :
    (mapMessageToContent msg).parts.length = 2 * fs.length + 1
    ∧ (∀ i (hi : i < fs.length),
        (mapMessageToContent msg).parts[2 * i]? = some (prefacePart fs[i])
        ∧ (mapMessageToContent msg).parts[2 * i + 1]? = some (dataPart fs[i]))
    ∧ (mapMessageToContent msg).parts[2 * fs.length]? = some (GenPart.text msg.text)
    ∧ (∀ m : Message, (m.role = Role.model ∨ m.files = none ∨ m.files = some []) →
        (mapMessageToContent m).parts
          = if m.text = "" then [] else [GenPart.text m.text]) := by
  have hhf : hasFiles msg = true := by
    simp [hasFiles, hrole, hfs]
    exact List.length_pos.mpr hne
  have hparts : (mapMessageToContent msg).parts
      = (fs.map filePartPair).flatten ++ [GenPart.text msg.text] := by
    simp [mapMessageToContent, hhf, hfs, htext]
  refine ⟨?_, ?_, ?_, ?_⟩
  · rw [hparts, List.length_append, flatPairs_length]
    rfl
  · intro i hi
    rw [hparts]
    exact flatPairs_getElem fs [GenPart.text msg.text] i hi
  · rw [hparts]
    exact flatPairs_getElem_last fs _
  · intro m hm
    have hru : (Role.model == Role.user) = false := rfl
    have hmf : hasFiles m = false := by
      rcases hm with h | h | h <;> simp [hasFiles, h, hru]
    simp only [mapMessageToContent, hmf]
    by_cases ht : m.text = "" <;> simp [ht]

/-- C1 witness at a concrete one-attachment user turn. -/
theorem C1_history_projection_witness :
    (mapMessageToContent sampleUserMessage).parts.length
      = 2 * [sampleImageFile].length + 1 :=
  (C1_history_projection sampleUserMessage [sampleImageFile] rfl rfl
    (by decide) (by decide)).1

/-- C2: the effective search flag is true exactly for mode `search` or for
mode `default` with the search preference on, and the request enables the
search tool exactly when that flag is true and the new turn carries no
files — never when attachments are present. -/
theorem C2_search_exclusion (sendMode : SendMode) (settings : Settings)
    (files : List UploadedFile) (history : List Message) (text : String) :
    (resolveUseSearch sendMode settings = true
       ↔ (sendMode = SendMode.search
           ∨ (sendMode = SendMode.default ∧ settings.useSearch = true)))
    ∧ ((streamResponse history text files settings sendMode).config.tools
         = some [Tool.googleSearch]
       ↔ (resolveUseSearch sendMode settings = true ∧ files = []))
    ∧ (files ≠ [] →
        (streamResponse history text files settings sendMode).config.tools = none) := by
  have htools : (streamResponse history text files settings sendMode).config.tools
      = if (resolveUseSearch sendMode settings && files.length == 0)
        then some [Tool.googleSearch] else none := rfl
  refine ⟨?_, ?_, ?_⟩
  · cases sendMode <;> cases h : settings.useSearch <;>
      simp [resolveUseSearch, h]
  · rw [htools]
    by_cases hflag : resolveUseSearch sendMode settings = true
    · by_cases hf : files = []
      · simp [hflag, hf]
      · have hl : (files.length == 0) = false :=
          beq_eq_false_iff_ne.mpr (fun h0 => hf (List.length_eq_zero.mp h0))
        simp [hflag, hl, hf]
    · have hflag2 : resolveUseSearch sendMode settings = false :=
        eq_false_of_ne_true hflag
      simp [hflag2]
  · intro hf
    rw [htools]
    have hl : (files.length == 0) = false :=
      beq_eq_false_iff_ne.mpr (fun h0 => hf (List.length_eq_zero.mp h0))
    simp [hl]

/-- C2 witness: in search mode with one attachment the tool stays off. -/
theorem C2_search_exclusion_witness :
    (streamResponse [] "q" [sampleImageFile] sampleSettings SendMode.search).config.tools
      = none :=
  (C2_search_exclusion SendMode.search sampleSettings [sampleImageFile] [] "q").2.2
    (by decide)

set_option maxRecDepth 8000 in
/-- C3 counterexample: a fragment that carries no grounding list does not
leave the turn's current list unchanged — it resets it to the initial empty
list, so after a stream whose last fragment carries none the turn does not
hold the last-received list. -/
theorem C3_counterexample :
    turnRefs ((cexChunks.foldl (streamFoldStep (some []) "c" "m") (cexStore, "")).1) "c" "m"
      = some (some [])
    ∧ turnRefs ((cexChunks.foldl (streamFoldStep (some []) "c" "m") (cexStore, "")).1) "c" "m"
      ≠ some (some [cexRef]) := by
  constructor
  · decide
  · decide

/-- C3 amended: a fragment carrying a grounding list replaces the turn's
list with it; a fragment carrying none resets the list to the streaming
turn's initial empty list; hence after the stream the turn holds the last
fragment's carried list, or the empty list when the last fragment carried
none. -/
theorem C3_grounding_fold (convs : List Conversation) (acc : String) (cid mid : String)
    (ch : Chunk) (cs : List Chunk) (hcs : cs ≠ []) :
    turnRefs (streamFoldStep (some []) cid mid (convs, acc) ch).1 cid mid
      = (turnRefs convs cid mid).map (fun _ => some (ch.groundingChunks.getD []))
    ∧ turnRefs ((cs.foldl (streamFoldStep (some []) cid mid) (convs, acc)).1) cid mid
      = (turnRefs convs cid mid).map
          (fun _ => some (((cs.getLast hcs).groundingChunks).getD [])) :=
  ⟨turnRefs_streamFoldStep cid mid (convs, acc) ch,
   turnRefs_foldl_last cid mid cs hcs (convs, acc)⟩

set_option maxRecDepth 8000 in
/-- C3 witness at a concrete conversation and fragment. -/
theorem C3_grounding_fold_witness :
    turnRefs (streamFoldStep (some []) "c1" "m"
        ([sampleConversation], "") { text := "x", groundingChunks := none }).1 "c1" "m"
      = (turnRefs [sampleConversation] "c1" "m").map
          (fun _ => some ((({ text := "x", groundingChunks := none } : Chunk).groundingChunks).getD [])) :=
  (C3_grounding_fold [sampleConversation] "" "c1" "m"
    { text := "x", groundingChunks := none }
    [{ text := "y", groundingChunks := none }] (by decide)).1

/-- C5: once a conversation is deleted, a streaming patch addressed to it —
and the whole remainder of the stream's fold — is a silent identity on the
store; generally a patch addressed to an id no conversation carries is the
identity. -/
theorem C5_patch_after_delete (st : AppState) (cid mid t : String)
    (g : Option (List GroundingChunk)) (cs : List Chunk) (acc : String) :
    patchTurn (handleDeleteConversation st cid).conversations cid mid t g
      = (handleDeleteConversation st cid).conversations
    ∧ (cs.foldl (streamFoldStep (some []) cid mid)
         ((handleDeleteConversation st cid).conversations, acc)).1
      = (handleDeleteConversation st cid).conversations
    ∧ (∀ convs : List Conversation, (∀ c ∈ convs, ¬ c.id = cid) →
        patchTurn convs cid mid t g = convs) := by
  have hmem : ∀ c ∈ (handleDeleteConversation st cid).conversations, ¬ c.id = cid := by
    intro c hc
    have hc2 : c ∈ st.conversations.filter (fun x => x.id != cid) := hc
    have hb := (List.mem_filter.mp hc2).2
    simpa using hb
  exact ⟨patchTurn_of_not_mem _ _ _ _ _ hmem,
         streamFold_of_not_mem cid mid cs _ acc hmem,
         fun convs h => patchTurn_of_not_mem _ _ _ _ _ h⟩

/-- C5 witness: a patch on an empty store is the identity. -/
theorem C5_patch_after_delete_witness :
    patchTurn ([] : List Conversation) "c1" "m" "t" none = [] :=
  (C5_patch_after_delete sampleState "c1" "m" "t" none [] "").2.2 []
    (by intro c hc; cases hc)

set_option maxRecDepth 8000 in
/-- C7 counterexample: the 30-character truncation of
"Explain quantum tunneling in simple terms" is
"Explain quantum tunneling in s", not the 32-character string
"Explain quantum tunneling in sim" the claim names. -/
theorem C7_counterexample :
    ((handleSendMessagePre emptyState
        "Explain quantum tunneling in simple terms" [] SendMode.default 7).state.conversations.head?.map
          Conversation.title)
      = some "Explain quantum tunneling in s"
    ∧ ("Explain quantum tunneling in s" : String) ≠ "Explain quantum tunneling in sim" := by
  constructor
  · rfl
  · decide

set_option maxRecDepth 8000 in
/-- C7 amended: a conversation receiving its first turn with non-empty text
is titled with that text truncated to 30 characters — on both the
new-conversation path and the existing-empty-conversation path — and the
truncation of "Explain quantum tunneling in simple terms" is
"Explain quantum tunneling in s". -/
theorem C7_first_turn_title (st : AppState) (text : String) (files : List UploadedFile)
    (sendMode : SendMode) (now : Nat) (htext : text ≠ "") :
    (currentConversation st = none →
       ((handleSendMessagePre st text files sendMode now).state.conversations.head?.map
          Conversation.title) = some (text.take 30))
    ∧ (∀ convo, currentConversation st = some convo → convo.messages = [] →
        ((conversationById
            (handleSendMessagePre st text files sendMode now).state.conversations
            convo.id).map Conversation.title) = some (text.take 30))
    ∧ "Explain quantum tunneling in simple terms".take 30
        = "Explain quantum tunneling in s" := by
  have ht30 := take30_ne_empty htext
  refine ⟨?_, ?_, by rfl⟩
  · intro hc
    simp [handleSendMessagePre, hc, take30Title, ht30]
  · intro convo hc hmsgs
    cases hcid : st.currentConversationId with
    | none =>
        have hnone : currentConversation st = none := by
          simp [currentConversation, hcid]
        rw [hnone] at hc
        cases hc
    | some cid =>
        have hfind : st.conversations.find? (fun c => c.id == cid) = some convo := by
          simpa [currentConversation, hcid] using hc
        have hid : convo.id = cid := by simpa using List.find?_some hfind
        simp only [handleSendMessagePre, hc]
        unfold conversationById
        rw [find?_id_map]
        · rw [hid, hfind]
          simp [updateWithUserMessage, hid, hmsgs, take30Title, ht30]
        · intro c
          unfold updateWithUserMessage
          by_cases hcc : c.id == convo.id <;> simp [hcc]

/-- C7 witness at a concrete first send into an empty store. -/
theorem C7_first_turn_title_witness :
    ((handleSendMessagePre emptyState "hello" [] SendMode.default 5).state.conversations.head?.map
       Conversation.title) = some ("hello".take 30) :=
  (C7_first_turn_title emptyState "hello" [] SendMode.default 5 (by decide)).1 (by rfl)

/-- C8: the thinking flag is set in the state handed to the backend call and
cleared in the final state, on every path of both send handlers, whatever
the backend outcome. -/
theorem C8_thinking_flag (b : Backend) (st : AppState) (text : String)
    (files : List UploadedFile) (settings : Settings) (sendMode : SendMode)
    (now : Nat) (prompt : String) (f : UploadedFile) :
    (stateBeforeBackendCall st text files sendMode now).isThinking = true
    ∧ (handleSendMessage b st text files settings sendMode now).isThinking = false
    ∧ (∀ convo, currentConversation st = some convo →
        (handleEditImagePre st prompt f now).isThinking = true
        ∧ (handleEditImage b st prompt f now).isThinking = false) := by
  have hpre : (handleSendMessagePre st text files sendMode now).state.isThinking = true := by
    unfold handleSendMessagePre
    cases currentConversation st <;> rfl
  refine ⟨?_, rfl, ?_⟩
  · unfold stateBeforeBackendCall
    dsimp only
    by_cases him : (sendMode == SendMode.image) = true
    · rw [if_pos him]
      exact hpre
    · rw [if_neg him]
      exact hpre
  · intro convo hc
    constructor
    · simp [handleEditImagePre, hc]
    · simp [handleEditImage, hc]

set_option maxRecDepth 8000 in
/-- C8 witness at a concrete send and image edit. -/
theorem C8_thinking_flag_witness :
    (stateBeforeBackendCall sampleState "hi" [] SendMode.default 5).isThinking = true
    ∧ (handleSendMessage okBackend sampleState "hi" [] sampleSettings SendMode.default 5).isThinking
        = false
    ∧ (handleEditImage okBackend sampleState "fix" sampleImageFile 5).isThinking = false := by
  have h := C8_thinking_flag okBackend sampleState "hi" [] sampleSettings SendMode.default 5
    "fix" sampleImageFile
  exact ⟨h.1, h.2.1, (h.2.2 sampleConversation (by decide)).2⟩

/-- C10: deleting the active conversation reassigns the active id to the
first remaining conversation, or clears it when none remain; deleting a
non-active conversation leaves the active id unchanged. -/
theorem C10_delete_conversation (st : AppState) (id : String) :
    (handleDeleteConversation st id).conversations
      = st.conversations.filter (fun c => c.id != id)
    ∧ (st.currentConversationId = some id →
        (handleDeleteConversation st id).currentConversationId
          = ((st.conversations.filter (fun c => c.id != id)).head?.map Conversation.id))
    ∧ (st.currentConversationId ≠ some id →
        (handleDeleteConversation st id).currentConversationId
          = st.currentConversationId) := by
  refine ⟨rfl, ?_, ?_⟩
  · intro h
    unfold handleDeleteConversation
    dsimp only
    rw [if_pos h]
    cases st.conversations.filter (fun c => c.id != id) <;> simp
  · intro h
    unfold handleDeleteConversation
    dsimp only
    rw [if_neg h]

/-- C10 witness: deleting the only, active conversation clears the id. -/
theorem C10_delete_conversation_witness :
    (handleDeleteConversation sampleState "c1").currentConversationId
      = ((sampleState.conversations.filter (fun c => c.id != "c1")).head?.map Conversation.id) :=
  (C10_delete_conversation sampleState "c1").2.1 (by rfl)

set_option maxRecDepth 8000 in
/-- C4 counterexample: on failure the two send paths do not append one and
the same apology string — the chat send path appends the generic apology
while the image-edit path appends a different, edit-specific apology. -/
theorem C4_counterexample :
    ((messagesAt (handleSendMessage failingBackend sampleState "hi" [] sampleSettings
          SendMode.default 5).conversations "c1").map
        (fun ms => ms.getLast?.map Message.text))
      = some (some sendErrorText)
    ∧ ((messagesAt (handleEditImage failingBackend sampleState "fix" sampleImageFile
          5).conversations "c1").map
        (fun ms => ms.getLast?.map Message.text))
      = some (some editErrorText)
    ∧ sendErrorText ≠ editErrorText := by
  refine ⟨by decide, by decide, by decide⟩

/-- C4 amended: when the dispatched backend operation fails, each handler
appends, to the state it had built before the call, exactly one model turn
carrying that handler's fixed apology string — the same string for every
error kind within a handler — and returns normally; but the two handlers use
two different apology strings. -/
theorem C4_error_recovery (b : Backend) (st : AppState) (text prompt : String)
    (files : List UploadedFile) (fileToEdit : UploadedFile) (settings : Settings)
    (sendMode : SendMode) (now : Nat) (hb : failsImmediately b) :
    (handleSendMessage b st text files settings sendMode now).conversations
      = appendMessage (stateBeforeBackendCall st text files sendMode now).conversations
          (handleSendMessagePre st text files sendMode now).convId (errorBotMessage now)
    ∧ (errorBotMessage now).role = Role.model
    ∧ (errorBotMessage now).text = sendErrorText
    ∧ (∀ convo, currentConversation st = some convo →
        (handleEditImage b st prompt fileToEdit now).conversations
          = appendMessage (handleEditImagePre st prompt fileToEdit now).conversations
              convo.id (editErrorBotMessage now))
    ∧ (editErrorBotMessage now).text = editErrorText
    ∧ sendErrorText ≠ editErrorText := by
  obtain ⟨hs, hg, he⟩ := hb
  refine ⟨?_, rfl, rfl, ?_, rfl, by decide⟩
  · by_cases him : sendMode = SendMode.image
    · subst him
      cases files with
      | nil =>
          obtain ⟨e, hge⟩ := hg text
          simp [handleSendMessage, stateBeforeBackendCall, dispatchCall, hge]
      | cons f rest =>
          cases hty : jsStartsWith f.type "image/" with
          | true =>
              obtain ⟨e, hee⟩ := he text f
              simp [handleSendMessage, stateBeforeBackendCall, dispatchCall, hty, hee]
          | false =>
              obtain ⟨e, hge⟩ := hg text
              simp [handleSendMessage, stateBeforeBackendCall, dispatchCall, hty, hge]
    · have him2 : (sendMode == SendMode.image) = false := by
        cases sendMode
        · rfl
        · rfl
        · rfl
        · exact absurd rfl him
      obtain ⟨e, hse⟩ := hs (streamResponse
        (handleSendMessagePre st text files sendMode now).history text files settings sendMode)
      simp [handleSendMessage, stateBeforeBackendCall, dispatchCall, him2, hse]
  · intro convo hc
    obtain ⟨e, hee⟩ := he prompt fileToEdit
    simp [handleEditImage, handleEditImagePre, hc, hee]

/-- C4 witness at a concrete failing send. -/
theorem C4_error_recovery_witness :
    (handleSendMessage failingBackend sampleState "hi" [] sampleSettings
        SendMode.default 5).conversations
      = appendMessage (stateBeforeBackendCall sampleState "hi" [] SendMode.default 5).conversations
          (handleSendMessagePre sampleState "hi" [] SendMode.default 5).convId
          (errorBotMessage 5) :=
  (C4_error_recovery failingBackend sampleState "hi" "fix" [] sampleImageFile sampleSettings
      SendMode.default 5
      ⟨fun _ => ⟨BackendError.backendRequest, rfl⟩,
       fun _ => ⟨BackendError.backendRequest, rfl⟩,
       fun _ _ => ⟨BackendError.backendRequest, rfl⟩⟩).1

/-- C6: a send in image mode with no files and non-empty text dispatches
text-to-image generation on exactly that text; before the backend call the
addressed conversation ends with the user turn and holds no model turn; and
the successful result is appended as a single complete model turn with empty
text and exactly the one generated attachment. -/
theorem C6_text_to_image (b : Backend) (st : AppState) (settings : Settings)
    (text : String) (now : Nat) (genFile : UploadedFile)
    (htext : text ≠ "") (hgen : b.generate text = Except.ok genFile) :
    text ≠ "" ∧
    dispatchCall (handleSendMessagePre st text [] SendMode.image now).history text []
        settings SendMode.image
      = BackendCall.generateCall text
    ∧ stateBeforeBackendCall st text [] SendMode.image now
        = (handleSendMessagePre st text [] SendMode.image now).state
    ∧ messagesAt (handleSendMessage b st text [] settings SendMode.image now).conversations
        (handleSendMessagePre st text [] SendMode.image now).convId
      = (messagesAt (handleSendMessagePre st text [] SendMode.image now).state.conversations
           (handleSendMessagePre st text [] SendMode.image now).convId).map
          (· ++ [{ id := "msg-" ++ toString now ++ "-bot-img", role := Role.model,
                   text := "", files := some [genFile], timestamp := now,
                   groundingChunks := none }])
    ∧ (messagesAt (handleSendMessagePre st text [] SendMode.image now).state.conversations
         (handleSendMessagePre st text [] SendMode.image now).convId).map List.getLast?
      = some (some { id := "msg-" ++ toString now, role := Role.user, text := text,
                     files := some [], timestamp := now, groundingChunks := none }) := by
  refine ⟨htext, rfl, rfl, ?_, ?_⟩
  · have hconv : (handleSendMessage b st text [] settings SendMode.image now).conversations
        = appendMessage (handleSendMessagePre st text [] SendMode.image now).state.conversations
            (handleSendMessagePre st text [] SendMode.image now).convId
            { id := "msg-" ++ toString now ++ "-bot-img", role := Role.model, text := "",
              files := some [genFile], timestamp := now, groundingChunks := none } := by
      simp [handleSendMessage, dispatchCall, hgen]
    rw [hconv, messagesAt_appendMessage]
  · cases hcur : currentConversation st with
    | none =>
        simp [handleSendMessagePre, hcur, messagesAt, conversationById]
    | some convo =>
        cases hcid : st.currentConversationId with
        | none =>
            have hnone : currentConversation st = none := by
              simp [currentConversation, hcid]
            rw [hnone] at hcur
            cases hcur
        | some cid =>
            have hfind : st.conversations.find? (fun c => c.id == cid) = some convo := by
              simpa [currentConversation, hcid] using hcur
            have hid : convo.id = cid := by simpa using List.find?_some hfind
            simp only [handleSendMessagePre, hcur]
            unfold messagesAt conversationById
            rw [find?_id_map]
            · rw [hid, hfind]
              simp [updateWithUserMessage, hid]
            · intro c
              unfold updateWithUserMessage
              by_cases hcc : c.id == convo.id <;> simp [hcc]

/-- C6 witness at a concrete text-to-image send. -/
theorem C6_text_to_image_witness :
    dispatchCall (handleSendMessagePre sampleState "a red bicycle" [] SendMode.image 5).history
        "a red bicycle" [] sampleSettings SendMode.image
      = BackendCall.generateCall "a red bicycle" :=
  (C6_text_to_image okBackend sampleState sampleSettings "a red bicycle" 5
      (generateImageFile 5 "a red bicycle" "CCCC") (by decide) rfl).2.1

/-- C9: a send in image mode whose first staged file has an image media type
dispatches image-to-image editing on that first file only — further staged
files influence neither the dispatch nor the edit request — and the
successful result is appended as one model turn carrying the response text
and exactly the one edited attachment; a non-image first file dispatches
text-to-image generation instead. -/
theorem C9_image_edit (b : Backend) (st : AppState) (settings : Settings)
    (text : String) (f : UploadedFile) (rest : List UploadedFile) (now : Nat)
    (respText : String) (editedFile : UploadedFile) (history : List Message)
    (himg : jsStartsWith f.type "image/" = true)
    (hedit : b.edit text f = Except.ok (respText, editedFile)) :
    dispatchCall history text (f :: rest) settings SendMode.image = BackendCall.editCall text f
    ∧ dispatchCall history text (f :: rest) settings SendMode.image
        = dispatchCall history text [f] settings SendMode.image
    ∧ editImageRequestParts text f
        = [GenPart.inlineData (mimeTypeOf f.data) (base64Of f.data), GenPart.text text]
    ∧ messagesAt (handleSendMessage b st text (f :: rest) settings SendMode.image now).conversations
        (handleSendMessagePre st text (f :: rest) SendMode.image now).convId
      = (messagesAt (handleSendMessagePre st text (f :: rest) SendMode.image now).state.conversations
           (handleSendMessagePre st text (f :: rest) SendMode.image now).convId).map
          (· ++ [{ id := "msg-" ++ toString now ++ "-bot-img-edit", role := Role.model,
                   text := respText, files := some [editedFile], timestamp := now,
                   groundingChunks := none }])
    ∧ (∀ f2 : UploadedFile, jsStartsWith f2.type "image/" = false →
        dispatchCall history text (f2 :: rest) settings SendMode.image
          = BackendCall.generateCall text) := by
  refine ⟨?_, ?_, rfl, ?_, ?_⟩
  · simp [dispatchCall, himg]
  · simp [dispatchCall, himg]
  · have hconv : (handleSendMessage b st text (f :: rest) settings SendMode.image now).conversations
        = appendMessage (handleSendMessagePre st text (f :: rest) SendMode.image now).state.conversations
            (handleSendMessagePre st text (f :: rest) SendMode.image now).convId
            { id := "msg-" ++ toString now ++ "-bot-img-edit", role := Role.model,
              text := respText, files := some [editedFile], timestamp := now,
              groundingChunks := none } := by
      simp [handleSendMessage, dispatchCall, himg, hedit]
    rw [hconv, messagesAt_appendMessage]
  · intro f2 h2
    simp [dispatchCall, h2]

/-- C9 witness at a concrete image-edit send. -/
theorem C9_image_edit_witness :
    dispatchCall [] "add a hat" [sampleImageFile] sampleSettings SendMode.image
      = BackendCall.editCall "add a hat" sampleImageFile :=
  (C9_image_edit okBackend sampleState sampleSettings "add a hat" sampleImageFile []
      5 "Edited." (generateImageFile 5 "add a hat" "DDDD") [] (by decide) rfl).1
